import Mathlib

/-!
Verification of the garden-care journal system (HW_1/robots.py and its two
driver scripts) against its design document.

Modelling choices, shared by every definition below:
* a `datetime` is the number of microseconds since an epoch (a natural
  number); the ordering on datetimes is the ordering on naturals, and
  calendar days are the quotient by `usPerDay`;
* a MongoDB document of either journal collection is a `Doc`; the ObjectId
  assigned on insertion is modelled by `Doc.oid`, set to the collection's
  size at insertion time, so ObjectIds increase with insertion order
  exactly as the single-process driver scripts produce them;
* amounts (`water_amount`, `number_of_branches`) are rationals — the Python
  values are floats/ints whose arithmetic here (sums, subtractions,
  comparisons against the integer quota bounds) is exact;
* a raised Python exception is an `Except`/`Option` error value, and a
  method's effect on mutable state is explicit state passing;
* MongoDB's `$week` (week-of-year of a timestamp) is an external engine
  function; it is passed as an explicit parameter `weekOf : ℕ → ℕ` where
  needed, since no property below depends on the calendar convention.
-/

namespace Robots

/-- Microseconds per second. -/
def usPerSecond : ℕ := 1000000

/-- Microseconds per hour. -/
def usPerHour : ℕ := 3600 * usPerSecond

/-- Microseconds per calendar day. -/
def usPerDay : ℕ := 24 * usPerHour

/-- Calendar-day index of a timestamp (the `$dateToParts`/`$dateFromParts`
grouping key of `DBHelper.sum_field_by_date`, which truncates a timestamp
to its calendar day). -/
def dateOf (t : ℕ) : ℕ := t / usPerDay

/-- Python's `dt.replace(hour=0, minute=0, second=0)`: hour, minute and
second are zeroed but the microsecond component of `t` is kept — the source
does not pass `microsecond=0`. -/
def replaceHMS0 (t : ℕ) : ℕ := t / usPerDay * usPerDay + t % usPerSecond

/-- Start of a timestamp's calendar day with every sub-day component zeroed.
Modelled from the spec: the spec's `floor(journalReadAt, day)`; used only to
compare the code's threshold `replaceHMS0` against the spec's words. -/
def dayFloor (t : ℕ) : ℕ := t / usPerDay * usPerDay

/-- A stored journal document: ObjectId, `robot_id`, `timestamp`, and the
numeric payload field (`water_amount` or `number_of_branches`). -/
structure Doc where
  oid : ℕ
  robot_id : ℕ
  timestamp : ℕ
  amount : ℚ
  deriving DecidableEq

/-- The `BinaryTreeJournal` database: its two collections, each a list in
insertion order. -/
structure DB where
  cut : List Doc
  water : List Doc
  deriving DecidableEq

/-- The `DailyData` namedtuple `(date, amount)`. -/
structure DailyData where
  date : ℕ
  amount : ℚ
  deriving DecidableEq

/-- The `WeeklyData` namedtuple `(week_number, amount)`. -/
structure WeeklyData where
  week_number : ℕ
  amount : ℚ
  deriving DecidableEq

/-- Errors the journal methods can surface. `indexError` and `valueError`
model the Python exceptions the source actually raises (`list[0]` of an
empty list, and the `ValueError` of `print_last_10_records`).
`insufficientData` is modelled from the spec: the spec's error taxonomy
names `InsufficientData` for range audits over empty data; nothing in the
source raises it, and it is present only so that claims about it can be
stated. -/
inductive PyError
  | indexError
  | valueError
  | insufficientData
  deriving DecidableEq

/-- The `NotEnoughWaterError` exception class of robots.py. -/
inductive NotEnoughWaterError
  | mk
  deriving DecidableEq

/-- `DBHelper.sum_by_field_value` as both quota methods call it: match
`timestamp >= value` (`operator = "$gte"`), sum the payload field; an empty
aggregation result yields 0, which the empty sum also is. -/
def sum_by_field_value (docs : List Doc) (value : ℕ) : ℚ :=
  ((docs.filter (fun d => value ≤ d.timestamp)).map Doc.amount).sum

/-- Grouping keys in order of first occurrence. The `$sort` stage of
`sum_field_by_date` sorts on fields (`year`, `month`, `day`) that no longer
exist after its `$group` stage, and the one in `sum_field_by_week` sorts on
the absent field `week`, so both sorts are no-ops and the engine's group
order is unspecified; it is modelled as first-occurrence order, and every
caller re-sorts in Python before using the result. -/
def firstOccKeys : List ℕ → List ℕ
  | [] => []
  | k :: rest => k :: (firstOccKeys rest).filter (fun x => x != k)

/-- `DBHelper.sum_field_by_date`: per-calendar-day totals of the payload
field, keyed by the day of `timestamp`. -/
def sum_field_by_date (docs : List Doc) : List (ℕ × ℚ) :=
  (firstOccKeys (docs.map (fun d => dateOf d.timestamp))).map
    (fun k =>
      (k, ((docs.filter (fun d => dateOf d.timestamp == k)).map Doc.amount).sum))

/-- `DBHelper.sum_field_by_week`: per-week totals of the payload field,
keyed by the engine's week number `weekOf` of `timestamp`. -/
def sum_field_by_week (weekOf : ℕ → ℕ) (docs : List Doc) : List (ℕ × ℚ) :=
  (firstOccKeys (docs.map (fun d => weekOf d.timestamp))).map
    (fun k =>
      (k, ((docs.filter (fun d => weekOf d.timestamp == k)).map Doc.amount).sum))

/-- The three robot classes of robots.py, as `Journal.update` distinguishes
them by `isinstance(robot, CutRobot)`. -/
inductive RobotKind
  | base
  | water
  | cut
  deriving DecidableEq

/-- The fields of the dict a robot passes to `Journal.update`; MongoDB
assigns the ObjectId on insertion (`insertDoc`). -/
structure InsertData where
  robot_id : ℕ
  timestamp : ℕ
  amount : ℚ
  deriving DecidableEq

/-- `collection.insert_one(data)`: append the document, with the ObjectId
modelled as the collection's current size (insertion counter). -/
def insertDoc (coll : List Doc) (d : InsertData) : List Doc :=
  coll ++ [⟨coll.length, d.robot_id, d.timestamp, d.amount⟩]

namespace Journal

/-- `self.stored_actions`. -/
def stored_actions : List String := ["cut", "water"]

/-- `self.max_water`. -/
def max_water : ℚ := 2

/-- `self.min_water`. -/
def min_water : ℚ := 1

/-- `self.max_branches`. -/
def max_branches : ℚ := 8

/-- `self.min_branches`. -/
def min_branches : ℚ := 4

/-- `Journal.update`: route on the dynamic type of the robot — the cut
journal if the robot is a `CutRobot`, the water journal for every other
robot. Total: no branch raises. -/
def update (robot : RobotKind) (data : InsertData) (s : DB) : DB :=
  if robot = RobotKind.cut then { s with cut := insertDoc s.cut data }
  else { s with water := insertDoc s.water data }

/-- `Journal.get_required_amount_of_water`, with `datetime.today()` passed
explicitly as `now`. -/
def get_required_amount_of_water (now : ℕ) (s : DB) : ℚ :=
  let today := replaceHMS0 now
  let todays_water_amount := sum_by_field_value s.water today
  if max_water ≤ todays_water_amount then 0
  else max_water - todays_water_amount

end Journal

/-- Sort key `_id` ascending. -/
def oidLE (a b : Doc) : Prop := a.oid ≤ b.oid

instance : DecidableRel oidLE := fun a b => Nat.decLe a.oid b.oid

instance : IsTotal Doc oidLE := ⟨fun a b => Nat.le_total a.oid b.oid⟩

instance : IsTrans Doc oidLE := ⟨fun _ _ _ h h2 => Nat.le_trans h h2⟩

/-- Sort key `timestamp` ascending. -/
def tsLE (a b : Doc) : Prop := a.timestamp ≤ b.timestamp

instance : DecidableRel tsLE := fun a b => Nat.decLe a.timestamp b.timestamp

instance : IsTotal Doc tsLE := ⟨fun a b => Nat.le_total a.timestamp b.timestamp⟩

instance : IsTrans Doc tsLE := ⟨fun _ _ _ h h2 => Nat.le_trans h h2⟩

/-- Sort key `_id` descending (`sort("_id", -1)`). -/
def oidGE (a b : Doc) : Prop := b.oid ≤ a.oid

instance : DecidableRel oidGE := fun a b => Nat.decLe b.oid a.oid

namespace Journal

/-- The inner loop of `get_ordering_errors`: for every `i` in
`enumerate(id_sort_res[:-1])`, flag `id_sort_res[i]["_id"]` when
`id_sort_res[i]["timestamp"] > id_sort_res[i + 1]["timestamp"]`. -/
def flagInversions : List Doc → List ℕ
  | a :: b :: rest =>
    (if b.timestamp < a.timestamp then [a.oid] else []) ++ flagInversions (b :: rest)
  | _ => []

/-- The per-collection body of `get_ordering_errors`: compare the `_id`-sorted
and the `timestamp`-sorted sequences, and if they differ walk the
`_id`-sorted one pairwise. -/
def orderingErrorsOf (docs : List Doc) : List ℕ :=
  let id_sort_res := List.insertionSort oidLE docs
  let time_sort_res := List.insertionSort tsLE docs
  if id_sort_res = time_sort_res then [] else flagInversions id_sort_res

/-- `self.db.list_collection_names()`: a MongoDB collection exists once a
document has been inserted into it (the store is append-only, nothing is
ever deleted), so the listing holds exactly the nonempty collections. -/
def list_collection_names (s : DB) : List String :=
  (if s.cut = [] then [] else ["CutJournal"]) ++
    (if s.water = [] then [] else ["WaterJournal"])

/-- `self.db[collection]`. -/
def collectionOf (s : DB) (c : String) : List Doc :=
  if c = "CutJournal" then s.cut else if c = "WaterJournal" then s.water else []

/-- `Journal.get_ordering_errors`: the dict
`collection -> flagged ObjectIds` as an association list over the
collections the database lists. -/
def get_ordering_errors (s : DB) : List (String × List ℕ) :=
  (list_collection_names s).map (fun c => (c, orderingErrorsOf (collectionOf s c)))

/-- The water audit's flag predicate:
`not (min_water <= day.amount <= max_water)`. -/
def waterRangeBad (d : DailyData) : Bool :=
  ! (decide (min_water ≤ d.amount) && decide (d.amount ≤ max_water))

/-- The cut audit's flag predicate:
`not (min_branches <= week.amount <= max_branches)`. -/
def cutRangeBad (w : WeeklyData) : Bool :=
  ! (decide (min_branches ≤ w.amount) && decide (w.amount ≤ max_branches))

end Journal

/-- Python's `sorted(..., key=lambda x: x.date)` ordering on daily data. -/
def dateLE (a b : DailyData) : Prop := a.date ≤ b.date

instance : DecidableRel dateLE := fun a b => Nat.decLe a.date b.date

instance : IsTotal DailyData dateLE := ⟨fun a b => Nat.le_total a.date b.date⟩

instance : IsTrans DailyData dateLE := ⟨fun _ _ _ h h2 => Nat.le_trans h h2⟩

/-- Python's `sorted(..., key=lambda x: x.week_number)` ordering. -/
def weekLE (a b : WeeklyData) : Prop := a.week_number ≤ b.week_number

instance : DecidableRel weekLE := fun a b => Nat.decLe a.week_number b.week_number

instance : IsTotal WeeklyData weekLE :=
  ⟨fun a b => Nat.le_total a.week_number b.week_number⟩

instance : IsTrans WeeklyData weekLE := ⟨fun _ _ _ h h2 => Nat.le_trans h h2⟩

namespace Journal

/-- `existing_data` of `get_water_errors` after its `sorted(...)` line:
the per-day totals as `DailyData`, sorted ascending by date (Python's sort
is stable; the per-day keys are pairwise distinct anyway). -/
def waterDailySorted (s : DB) : List DailyData :=
  List.insertionSort dateLE ((sum_field_by_date s.water).map (fun p => ⟨p.1, p.2⟩))

/-- The synthesized days of `get_water_errors` on a nonempty sorted list
`a :: l`: `start = existing_dates[0]`, `stop = existing_dates[-1]`,
`total_days = (stop - start).days`, and for `i in range(total_days)` the
date `start + i` is produced with amount 0 when absent from
`existing_dates`. Loop order keeps them ascending among themselves. -/
def gapsDaily (a : DailyData) (l : List DailyData) : List DailyData :=
  let existing_dates := (a :: l).map DailyData.date
  let start := a.date
  let stop := ((a :: l).getLast (List.cons_ne_nil a l)).date
  let total_days := stop - start
  (List.range total_days).filterMap
    (fun i =>
      if start + i ∈ existing_dates then none
      else some ⟨start + i, (0 : ℚ)⟩)

/-- The gap-filling loop of `get_water_errors`: each synthesized day is
appended to `existing_data`, after every existing day. -/
def fillDaily (a : DailyData) (l : List DailyData) : List DailyData :=
  (a :: l) ++ gapsDaily a l

/-- `Journal.get_water_errors`: on an empty derived sequence the source's
`existing_dates[0]` raises `IndexError`; otherwise fill the gaps and keep
the days whose total falls outside `[min_water, max_water]`. -/
def get_water_errors (s : DB) : Except PyError (List DailyData) :=
  match waterDailySorted s with
  | [] => Except.error PyError.indexError
  | a :: l => Except.ok ((fillDaily a l).filter waterRangeBad)

/-- `week_data` of `get_cut_errors` after its `sorted(...)` line. -/
def cutWeeklySorted (weekOf : ℕ → ℕ) (s : DB) : List WeeklyData :=
  List.insertionSort weekLE
    ((sum_field_by_week weekOf s.cut).map (fun p => ⟨p.1, p.2⟩))

/-- The synthesized weeks of `get_cut_errors` on a nonempty sorted list:
`for week_number in range(start.week_number, stop.week_number)` — a
half-open range, exactly `List.range' start (stop - start)` — producing
the week numbers absent from `existing_weeks` with amount 0. -/
def gapsWeekly (a : WeeklyData) (l : List WeeklyData) : List WeeklyData :=
  let existing_weeks := (a :: l).map WeeklyData.week_number
  let start := a
  let stop := (a :: l).getLast (List.cons_ne_nil a l)
  (List.range' start.week_number (stop.week_number - start.week_number)).filterMap
    (fun w => if w ∈ existing_weeks then none else some ⟨w, (0 : ℚ)⟩)

/-- The gap-filling loop of `get_cut_errors`: each synthesized week is
appended to `week_data`, after every existing week. -/
def fillWeekly (a : WeeklyData) (l : List WeeklyData) : List WeeklyData :=
  (a :: l) ++ gapsWeekly a l

/-- `Journal.get_cut_errors`: on an empty derived sequence the source's
`week_data[0]` raises `IndexError`; otherwise fill the gaps and keep the
weeks whose total falls outside `[min_branches, max_branches]`. -/
def get_cut_errors (weekOf : ℕ → ℕ) (s : DB) : Except PyError (List WeeklyData) :=
  match cutWeeklySorted weekOf s with
  | [] => Except.error PyError.indexError
  | a :: l => Except.ok ((fillWeekly a l).filter cutRangeBad)

/-- `Journal.print_last_10_records`: raise `ValueError` when the action is
not a stored action kind; otherwise read the chosen collection sorted by
`_id` descending, limited to 10 — purely a read, returning the store
unchanged in either branch. The printed lines are the returned documents. -/
def print_last_10_records (action : String) (s : DB) :
    Except PyError (List Doc) × DB :=
  if action ∉ stored_actions then (Except.error PyError.valueError, s)
  else
    let collection := if action = "cut" then s.cut else s.water
    (Except.ok ((List.insertionSort oidGE collection).take 10), s)

end Journal

/-- The `WaterRobot` dataclass: `_id_number`, `_volume`, and `_water_level`
(which defaults to 0 at construction). -/
structure WaterRobot where
  id_number : ℕ
  volume : ℚ
  water_level : ℚ
  deriving DecidableEq

/-- `WaterRobot.refill_tank`. -/
def WaterRobot.refill_tank (r : WaterRobot) : WaterRobot :=
  { r with water_level := r.volume }

/-- `WaterRobot.water_tree`, with `datetime` calls passed as `now`: when the
required volume is nonzero and within the tank, decrement the level and
insert the journal entry (a `WaterRobot` is not a `CutRobot`, so
`Journal.update` routes it to the water journal); when the required volume
exceeds the level, raise `NotEnoughWaterError` before touching any state;
when nothing is required, print and change nothing. -/
def WaterRobot.water_tree (now : ℕ) (r : WaterRobot) (s : DB) :
    Option NotEnoughWaterError × WaterRobot × DB :=
  let required_volume := Journal.get_required_amount_of_water now s
  if required_volume ≠ 0 then
    if required_volume ≤ r.water_level then
      ( none,
        { r with water_level := r.water_level - required_volume },
        Journal.update RobotKind.water ⟨r.id_number, now, required_volume⟩ s )
    else (some NotEnoughWaterError.mk, r, s)
  else (none, r, s)

/-- watering_script.py: construct `WaterRobot('w1', 5)` (tank volume 5,
water level 0), try `water_tree`; on `NotEnoughWaterError` refill the tank
and call `water_tree` once more, letting any second error propagate. The
two call times are passed explicitly. -/
def watering_script (now1 now2 rid : ℕ) (s : DB) :
    Option NotEnoughWaterError × WaterRobot × DB :=
  let water_robot : WaterRobot := ⟨rid, 5, 0⟩
  match WaterRobot.water_tree now1 water_robot s with
  | (none, r2, s2) => (none, r2, s2)
  | (some _, r2, s2) => WaterRobot.water_tree now2 r2.refill_tank s2

/-- In a list sorted by a natural-number key, the head's key is minimal. -/
theorem sorted_head_key_le {α : Type} (f : α → ℕ) (a : α) (l : List α)
    (hs : List.Sorted (fun x y => f x ≤ f y) (a :: l)) :
    ∀ x ∈ a :: l, f a ≤ f x := by
  intro x hx
  rcases List.mem_cons.mp hx with rfl | hx2
  · exact Nat.le_refl _
  · exact List.rel_of_sorted_cons hs x hx2

/-- In a list sorted by a natural-number key, the last element's key is
maximal. -/
theorem sorted_key_le_getLast {α : Type} (f : α → ℕ) :
    ∀ (a : α) (l : List α),
      List.Sorted (fun x y => f x ≤ f y) (a :: l) →
      ∀ x ∈ a :: l, f x ≤ f ((a :: l).getLast (List.cons_ne_nil a l))
  | a, [], _, x, hx => by
    rcases List.mem_cons.mp hx with rfl | hx2
    · exact Nat.le_refl _
    · simp at hx2
  | a, b :: l, hs, x, hx => by
    rw [List.getLast_cons (List.cons_ne_nil b l)]
    rcases List.mem_cons.mp hx with rfl | hx2
    · exact List.rel_of_sorted_cons hs _ (List.getLast_mem (List.cons_ne_nil b l))
    · exact sorted_key_le_getLast f b l hs.of_cons x hx2

end Robots

namespace Robots

/-- C1 counterexample. Insert three water entries in insertion order with
timestamps 10:00, 09:00, 11:00 (ObjectIds 0, 1, 2). The ordering audit
flags ObjectId 0 — the FIRST inserted entry, the 10:00 one — and not
ObjectId 1, the 09:00 entry the claim says is flagged: the loop appends
`id_sort_res[i]["_id"]` (the earlier entry of the inverted pair), not
`id_sort_res[i + 1]["_id"]`. -/
theorem C1_ordering_cex :
    Journal.get_ordering_errors
        ⟨[], [⟨0, 3, 10 * usPerHour, 1⟩, ⟨1, 3, 9 * usPerHour, 1⟩,
              ⟨2, 3, 11 * usPerHour, 1⟩]⟩
      = [("WaterJournal", [0])] ∧
    Journal.get_ordering_errors
        ⟨[], [⟨0, 3, 10 * usPerHour, 1⟩, ⟨1, 3, 9 * usPerHour, 1⟩,
              ⟨2, 3, 11 * usPerHour, 1⟩]⟩
      ≠ [("WaterJournal", [1])] := by
  decide

/-- C1 (amended): in the `[10:00, 09:00, 11:00]` insertion-order scenario
the ordering audit flags exactly the first inserted entry (ObjectId 0, the
10:00 one, whose timestamp exceeds its insertion-order successor's), and
no other entry of either collection. -/
theorem C1_ordering_flags_first :
    Journal.get_ordering_errors
        ⟨[], [⟨0, 4, 10 * usPerHour, 2⟩, ⟨1, 4, 9 * usPerHour, 2⟩,
              ⟨2, 4, 11 * usPerHour, 2⟩]⟩
      = [("WaterJournal", [0])] := by
  decide

/-- C2 counterexample. On the empty store both range audits evaluate to the
untyped `IndexError` of `existing_dates[0]` / `week_data[0]`, not to the
spec's typed `InsufficientData`; and on a single-point dataset (one entry,
so no range of more than one period exists) the water audit returns a
normal `ok` result instead of failing. -/
theorem C2_audit_cex :
    Journal.get_water_errors ⟨[], []⟩ = Except.error PyError.indexError ∧
    Journal.get_water_errors ⟨[], []⟩ ≠ Except.error PyError.insufficientData ∧
    Journal.get_cut_errors (fun t => t / (7 * usPerDay)) ⟨[], []⟩
      = Except.error PyError.indexError ∧
    Journal.get_cut_errors (fun t => t / (7 * usPerDay)) ⟨[], []⟩
      ≠ Except.error PyError.insufficientData ∧
    Journal.get_water_errors ⟨[], [⟨0, 1, 0, 1.5⟩]⟩ = Except.ok [] := by
  have h1 : Journal.get_water_errors ⟨[], []⟩ = Except.error PyError.indexError := rfl
  have h2 : Journal.get_cut_errors (fun t => t / (7 * usPerDay)) ⟨[], []⟩
      = Except.error PyError.indexError := rfl
  refine ⟨h1, fun h => PyError.noConfusion (Except.error.inj (h1 ▸ h)),
    h2, fun h => PyError.noConfusion (Except.error.inj (h2 ▸ h)), ?_⟩
  norm_num [Journal.get_water_errors, Journal.waterDailySorted, sum_field_by_date,
    firstOccKeys, dateOf, Journal.fillDaily, Journal.gapsDaily, Journal.waterRangeBad,
    Journal.min_water, Journal.max_water, usPerDay, usPerHour, usPerSecond,
    dateLE, List.range_succ, List.filterMap_cons]

/-- C2 (amended): on an empty collection each range audit fails with the
untyped `IndexError` raised by indexing the empty derived sequence — it
does not return a normal result, but it does not surface a typed
`InsufficientData` error either; on a single-point dataset the audits do
not fail at all and return the normal filter result. -/
theorem C2_audit_empty_vs_single (weekOf : ℕ → ℕ) (s : DB) :
    (s.water = [] → Journal.get_water_errors s = Except.error PyError.indexError) ∧
    (s.cut = [] → Journal.get_cut_errors weekOf s = Except.error PyError.indexError) ∧
    (∀ d : Doc, s.water = [d] →
      ∃ res, Journal.get_water_errors s = Except.ok res) ∧
    (∀ d : Doc, s.cut = [d] →
      ∃ res, Journal.get_cut_errors weekOf s = Except.ok res) := by
  refine ⟨fun hw => ?_, fun hc => ?_, fun d hd => ?_, fun d hd => ?_⟩
  · have h0 : Journal.waterDailySorted s = [] := by
      simp [Journal.waterDailySorted, sum_field_by_date, hw, firstOccKeys]
    simp [Journal.get_water_errors, h0]
  · have h0 : Journal.cutWeeklySorted weekOf s = [] := by
      simp [Journal.cutWeeklySorted, sum_field_by_week, hc, firstOccKeys]
    simp [Journal.get_cut_errors, h0]
  · have h0 : Journal.waterDailySorted s = [⟨dateOf d.timestamp, d.amount⟩] := by
      simp [Journal.waterDailySorted, sum_field_by_date, hd, firstOccKeys]
    exact ⟨(Journal.fillDaily ⟨dateOf d.timestamp, d.amount⟩ []).filter
        Journal.waterRangeBad,
      by simp [Journal.get_water_errors, h0]⟩
  · have h0 : Journal.cutWeeklySorted weekOf s = [⟨weekOf d.timestamp, d.amount⟩] := by
      simp [Journal.cutWeeklySorted, sum_field_by_week, hd, firstOccKeys]
    exact ⟨(Journal.fillWeekly ⟨weekOf d.timestamp, d.amount⟩ []).filter
        Journal.cutRangeBad,
      by simp [Journal.get_cut_errors, h0]⟩

/-- C3. Two water entries totalling 1.5 L on calendar day 1 ("Jan 1") and
1.5 L on day 3 ("Jan 3"): the audit synthesizes day 2 ("Jan 2") with total
0, flags exactly it (0 is below `min_water = 1`), and flags neither
existing day (1.5 lies within [1, 2]). -/
theorem C3_gap_fill_flags_middle_day :
    Journal.get_water_errors
        ⟨[], [⟨0, 1, usPerDay + 5 * usPerHour, 1.5⟩,
              ⟨1, 1, 3 * usPerDay + 5 * usPerHour, 1.5⟩]⟩
      = Except.ok [⟨2, 0⟩] := by
  norm_num [Journal.get_water_errors, Journal.waterDailySorted, sum_field_by_date,
    firstOccKeys, dateOf, Journal.fillDaily, Journal.gapsDaily, Journal.waterRangeBad,
    Journal.min_water, Journal.max_water, usPerDay, usPerHour, usPerSecond,
    dateLE, List.range_succ, List.filterMap_cons]

/-- C4 counterexample. One water entry of 2 L at the exact start of day 0
(timestamp 0), read at `now = 1` (one microsecond past midnight). The
claim's threshold `floor(now, day) = 0` counts the entry, giving
`max(0, 2 - 2) = 0`; the code's threshold
`replace(hour=0, minute=0, second=0) = 1` keeps `now`'s microsecond, the
entry is not counted, and the code returns 2. -/
theorem C4_microsecond_cex :
    Journal.get_required_amount_of_water 1 ⟨[], [⟨0, 7, 0, 2⟩]⟩ = 2 ∧
    max 0 (Journal.max_water - sum_by_field_value [⟨0, 7, 0, 2⟩] (dayFloor 1)) = 0 ∧
    Journal.get_required_amount_of_water 1 ⟨[], [⟨0, 7, 0, 2⟩]⟩ ≠
      max 0 (Journal.max_water - sum_by_field_value [⟨0, 7, 0, 2⟩] (dayFloor 1)) := by
  norm_num [Journal.get_required_amount_of_water, sum_by_field_value, replaceHMS0,
    dayFloor, usPerDay, usPerHour, usPerSecond, Journal.max_water]

/-- C4 (amended): for every call time `now` and store `s` the required
amount equals `max(0, max_water - used)` where `used` sums the water
amounts of entries with `timestamp ≥ replaceHMS0 now` — the start of
`now`'s calendar day with hour, minute and second zeroed but `now`'s
microsecond component retained; the result is never negative and is
exactly 0 whenever `used ≥ max_water`. -/
theorem C4_remaining_water_formula (now : ℕ) (s : DB) :
    Journal.get_required_amount_of_water now s =
      max 0 (Journal.max_water - sum_by_field_value s.water (replaceHMS0 now)) ∧
    0 ≤ Journal.get_required_amount_of_water now s ∧
    (Journal.max_water ≤ sum_by_field_value s.water (replaceHMS0 now) →
      Journal.get_required_amount_of_water now s = 0) := by
  by_cases h : Journal.max_water ≤ sum_by_field_value s.water (replaceHMS0 now)
  · have hx : Journal.max_water - sum_by_field_value s.water (replaceHMS0 now) ≤ 0 :=
      sub_nonpos.mpr h
    simp [Journal.get_required_amount_of_water, h, max_eq_left hx]
  · have hx : (0 : ℚ) ≤ Journal.max_water - sum_by_field_value s.water (replaceHMS0 now) :=
      le_of_lt (sub_pos.mpr (lt_of_not_le h))
    simp [Journal.get_required_amount_of_water, h, max_eq_right hx, hx]

/-- C5. From the empty store, the water cycle of watering_script.py —
`WaterRobot(rid, 5)` (tank volume 5, level 0), `water_tree`, and on
`NotEnoughWaterError` one refill followed by one retry — ends without
error, records exactly one water entry with `water_amount = 2`
(`= max_water`), and leaves the tank level at `5 - 2 = 3`; `now1` and
`now2` are the two call times. -/
theorem C5_watering_cycle (now1 now2 rid : ℕ) :
    watering_script now1 now2 rid ⟨[], []⟩ =
      (none, ⟨rid, 5, 3⟩, ⟨[], [⟨0, rid, now2, 2⟩]⟩) := by
  norm_num [watering_script, WaterRobot.water_tree,
    Journal.get_required_amount_of_water, sum_by_field_value, Journal.max_water,
    Journal.update, insertDoc, WaterRobot.refill_tank]
  all_goals decide

end Robots

namespace Robots

/-- C6. For every store whose water (resp. cut) collection yields a
nonempty derived series, the gap-filled daily (resp. weekly) sequence used
by the range audit contains an entry for every calendar day (resp. week
number) lying between two existing keys — so for the whole inclusive range
`[min(existing), max(existing)]` — and every such missing period is present
with amount 0. The final week is covered despite the half-open
`range(start, stop)` loop because the maximal week always carries data. -/
theorem C6_filled_series_cover (weekOf : ℕ → ℕ) (s : DB) :
    (∀ (a : DailyData) (l : List DailyData), Journal.waterDailySorted s = a :: l →
      ∀ d : ℕ, (∃ x ∈ a :: l, x.date ≤ d) → (∃ y ∈ a :: l, d ≤ y.date) →
        d ∈ (Journal.fillDaily a l).map DailyData.date ∧
        (d ∉ (a :: l).map DailyData.date →
          (⟨d, 0⟩ : DailyData) ∈ Journal.fillDaily a l)) ∧
    (∀ (a : WeeklyData) (l : List WeeklyData),
      Journal.cutWeeklySorted weekOf s = a :: l →
      ∀ w : ℕ, (∃ x ∈ a :: l, x.week_number ≤ w) →
        (∃ y ∈ a :: l, w ≤ y.week_number) →
        w ∈ (Journal.fillWeekly a l).map WeeklyData.week_number ∧
        (w ∉ (a :: l).map WeeklyData.week_number →
          (⟨w, 0⟩ : WeeklyData) ∈ Journal.fillWeekly a l)) := by
  constructor
  · rintro a l hsorted d ⟨e1, he1, hde1⟩ ⟨e2, he2, hde2⟩
    have hs : List.Sorted (fun x y : DailyData => x.date ≤ y.date) (a :: l) := by
      rw [← hsorted]; exact List.sorted_insertionSort dateLE _
    have hstart : a.date ≤ d :=
      le_trans (sorted_head_key_le DailyData.date a l hs e1 he1) hde1
    have hstop : d ≤ ((a :: l).getLast (List.cons_ne_nil a l)).date :=
      le_trans hde2 (sorted_key_le_getLast DailyData.date a l hs e2 he2)
    by_cases hmem : d ∈ (a :: l).map DailyData.date
    · refine ⟨?_, fun hn => absurd hmem hn⟩
      simp only [Journal.fillDaily, List.map_append]
      exact List.mem_append_left _ hmem
    · have hne : d ≠ ((a :: l).getLast (List.cons_ne_nil a l)).date := fun he =>
        hmem (he ▸ List.mem_map_of_mem DailyData.date
          (List.getLast_mem (List.cons_ne_nil a l)))
      have hlt : d < ((a :: l).getLast (List.cons_ne_nil a l)).date :=
        lt_of_le_of_ne hstop hne
      have hgap : (⟨d, 0⟩ : DailyData) ∈ Journal.gapsDaily a l := by
        simp only [Journal.gapsDaily]
        refine List.mem_filterMap.mpr ⟨d - a.date, List.mem_range.mpr (by omega), ?_⟩
        simp only [Nat.add_sub_cancel' hstart, if_neg hmem]
      exact ⟨List.mem_map_of_mem DailyData.date (List.mem_append_right _ hgap),
        fun _ => List.mem_append_right _ hgap⟩
  · rintro a l hsorted w ⟨e1, he1, hwe1⟩ ⟨e2, he2, hwe2⟩
    have hs : List.Sorted
        (fun x y : WeeklyData => x.week_number ≤ y.week_number) (a :: l) := by
      rw [← hsorted]; exact List.sorted_insertionSort weekLE _
    have hstart : a.week_number ≤ w :=
      le_trans (sorted_head_key_le WeeklyData.week_number a l hs e1 he1) hwe1
    have hstop : w ≤ ((a :: l).getLast (List.cons_ne_nil a l)).week_number :=
      le_trans hwe2 (sorted_key_le_getLast WeeklyData.week_number a l hs e2 he2)
    by_cases hmem : w ∈ (a :: l).map WeeklyData.week_number
    · refine ⟨?_, fun hn => absurd hmem hn⟩
      simp only [Journal.fillWeekly, List.map_append]
      exact List.mem_append_left _ hmem
    · have hne : w ≠ ((a :: l).getLast (List.cons_ne_nil a l)).week_number :=
        fun he => hmem (he ▸ List.mem_map_of_mem WeeklyData.week_number
          (List.getLast_mem (List.cons_ne_nil a l)))
      have hlt : w < ((a :: l).getLast (List.cons_ne_nil a l)).week_number :=
        lt_of_le_of_ne hstop hne
      have hgap : (⟨w, 0⟩ : WeeklyData) ∈ Journal.gapsWeekly a l := by
        simp only [Journal.gapsWeekly]
        refine List.mem_filterMap.mpr
          ⟨w, List.mem_range'_1.mpr ⟨hstart, by omega⟩, ?_⟩
        simp only [if_neg hmem]
      exact ⟨List.mem_map_of_mem WeeklyData.week_number
          (List.mem_append_right _ hgap),
        fun _ => List.mem_append_right _ hgap⟩

/-- C7 counterexample. Water entries of 1.5 L on day 1 and 5 L on day 3
(day 2 missing): the audit flags day 3 (5 exceeds `max_water`) and the
synthesized day 2 (0 below `min_water`), returning them in the order
`[day 3, day 2]` — the synthesized day is appended after the sorted
existing days, so the flagged sequence is not ordered ascending by date. -/
theorem C7_unsorted_output_cex :
    Journal.get_water_errors
        ⟨[], [⟨0, 1, usPerDay, 1.5⟩, ⟨1, 1, 3 * usPerDay, 5⟩]⟩
      = Except.ok [⟨3, 5⟩, ⟨2, 0⟩] ∧
    ¬ List.Sorted dateLE [(⟨3, 5⟩ : DailyData), ⟨2, 0⟩] := by
  constructor
  · norm_num [Journal.get_water_errors, Journal.waterDailySorted,
      sum_field_by_date, firstOccKeys, dateOf, Journal.fillDaily,
      Journal.gapsDaily, Journal.waterRangeBad, Journal.min_water,
      Journal.max_water, usPerDay, usPerHour, usPerSecond, dateLE,
      List.range_succ, List.filterMap_cons]
  · intro h
    have h3 := List.rel_of_sorted_cons h ⟨2, 0⟩ (by simp)
    simp [dateLE] at h3

/-- C7 (amended): for every store with a nonempty derived water series the
flagged records come as two blocks, `A ++ B`: first the flagged
existing-date records `A` in ascending date order, then the flagged
synthesized gap-day records `B` (amount 0, dates absent from the existing
dates) in strictly ascending date order among themselves — the
concatenation is not in general globally ordered by date. -/
theorem C7_water_errors_two_sorted_blocks (s : DB) (a : DailyData)
    (l : List DailyData) (hsorted : Journal.waterDailySorted s = a :: l) :
    ∃ A B, Journal.get_water_errors s = Except.ok (A ++ B) ∧
      List.Sorted dateLE A ∧
      List.Pairwise (fun x y : DailyData => x.date < y.date) B ∧
      (∀ x ∈ A, x.date ∈ (a :: l).map DailyData.date) ∧
      (∀ x ∈ B, x.date ∉ (a :: l).map DailyData.date ∧ x.amount = 0) := by
  have hs : List.Sorted dateLE (a :: l) := by
    rw [← hsorted]; exact List.sorted_insertionSort dateLE _
  refine ⟨(a :: l).filter Journal.waterRangeBad,
    (Journal.gapsDaily a l).filter Journal.waterRangeBad, ?_, ?_, ?_, ?_, ?_⟩
  · simp only [Journal.get_water_errors, hsorted, Journal.fillDaily,
      List.filter_append]
  · exact List.Pairwise.filter _ hs
  · refine List.Pairwise.filter _ ?_
    simp only [Journal.gapsDaily]
    refine List.pairwise_filterMap.mpr ?_
    refine (List.pairwise_lt_range _).imp ?_
    intro i j hij x hx y hy
    split at hx
    · simp at hx
    · split at hy
      · simp at hy
      · simp only [Option.mem_def, Option.some.injEq] at hx hy
        subst hx; subst hy
        simpa using Nat.add_lt_add_left hij a.date
  · intro x hx
    exact List.mem_map_of_mem DailyData.date (List.mem_of_mem_filter hx)
  · intro x hx
    have hx2 := List.mem_of_mem_filter hx
    simp only [Journal.gapsDaily] at hx2
    rcases List.mem_filterMap.mp hx2 with ⟨i, hi, hfi⟩
    by_cases hmem : a.date + i ∈ (a :: l).map DailyData.date
    · rw [if_pos hmem] at hfi
      exact absurd hfi (by simp)
    · rw [if_neg hmem] at hfi
      cases Option.some.inj hfi
      exact ⟨hmem, rfl⟩

/-- C7 witness: the two-block shape at a concrete store — one water entry
of 5 L at timestamp 0, whose single existing day is flagged (5 exceeds
`max_water`) and which synthesizes no gap day. -/
theorem C7_water_errors_two_sorted_blocks_wit :
    ∃ A B, Journal.get_water_errors ⟨[], [⟨0, 1, 0, 5⟩]⟩ = Except.ok (A ++ B) ∧
      List.Sorted dateLE A ∧
      List.Pairwise (fun x y : DailyData => x.date < y.date) B ∧
      (∀ x ∈ A, x.date ∈ ([⟨0, 5⟩] : List DailyData).map DailyData.date) ∧
      (∀ x ∈ B, x.date ∉ ([⟨0, 5⟩] : List DailyData).map DailyData.date ∧
        x.amount = 0) :=
  C7_water_errors_two_sorted_blocks ⟨[], [⟨0, 1, 0, 5⟩]⟩ ⟨0, 5⟩ []
    (by norm_num [Journal.waterDailySorted, sum_field_by_date, firstOccKeys,
      dateOf, usPerDay, usPerHour, usPerSecond])

/-- C8. `print_last_10_records` yields the `ValueError` exactly when the
action is neither "cut" nor "water" (the two stored action kinds), and in
every case — valid or invalid action — returns the store unchanged: it
inserts into neither collection. -/
theorem C8_print_pure (action : String) (s : DB) :
    ((Journal.print_last_10_records action s).1 = Except.error PyError.valueError ↔
      ¬ (action = "cut" ∨ action = "water")) ∧
    (Journal.print_last_10_records action s).2 = s := by
  by_cases h : action ∈ Journal.stored_actions
  · have h2 : action = "cut" ∨ action = "water" := by
      simpa [Journal.stored_actions] using h
    refine ⟨iff_of_false ?_ (not_not_intro h2), ?_⟩
    · simp [Journal.print_last_10_records, h]
    · simp [Journal.print_last_10_records, h]
  · have h2 : ¬ (action = "cut" ∨ action = "water") := by
      simpa [Journal.stored_actions] using h
    refine ⟨iff_of_true ?_ h2, ?_⟩
    · simp [Journal.print_last_10_records, h]
    · simp [Journal.print_last_10_records, h]

/-- C9. `water_tree` is atomic: when the required amount is positive and
exceeds the tank level it returns the `NotEnoughWaterError` with the robot
and both collections untouched; when the required amount is positive and
within the level, the level drops by exactly that amount and exactly one
entry with `water_amount` equal to it is appended to the water journal. -/
theorem C9_water_tree_effects (now : ℕ) (r : WaterRobot) (s : DB) :
    (0 < Journal.get_required_amount_of_water now s →
      r.water_level < Journal.get_required_amount_of_water now s →
        WaterRobot.water_tree now r s = (some NotEnoughWaterError.mk, r, s)) ∧
    (0 < Journal.get_required_amount_of_water now s →
      Journal.get_required_amount_of_water now s ≤ r.water_level →
        WaterRobot.water_tree now r s =
          (none,
            { r with water_level :=
                r.water_level - Journal.get_required_amount_of_water now s },
            { s with water := s.water ++ [⟨s.water.length, r.id_number, now,
                Journal.get_required_amount_of_water now s⟩] })) := by
  constructor
  · intro h1 h2
    simp [WaterRobot.water_tree, h1.ne', not_le.mpr h2]
  · intro h1 h2
    simp [WaterRobot.water_tree, h1.ne', h2, Journal.update, insertDoc,
      show RobotKind.water ≠ RobotKind.cut from fun hk => RobotKind.noConfusion hk]

/-- C10. `Journal.update` inserts into the cut journal exactly when the
robot is a `CutRobot`; every other robot kind — the base `Robot` and
`WaterRobot` alike — falls to the `else` branch and is inserted into the
water journal; the function is total, so no unrecognized-robot error
exists. -/
theorem C10_update_routes_on_kind (k : RobotKind) (d : InsertData) (s : DB) :
    ((Journal.update k d s).cut = insertDoc s.cut d ∧
        (Journal.update k d s).water = s.water ↔ k = RobotKind.cut) ∧
    ((Journal.update k d s).water = insertDoc s.water d ∧
        (Journal.update k d s).cut = s.cut ↔ k ≠ RobotKind.cut) := by
  cases k <;> simp [Journal.update, insertDoc]

end Robots
